import Mathlib

/-!
# Verification of the Simple Sokoban core (sok_core.c, save.c)

Shallow embedding of the game's rules engine:

* the solution history codec of `save.c` (`xsb2byte`, `byte2xsb`,
  the RLE encoder of `solution_save` and the decoder of `solution_load`);
* the move/undo engine of `sok_core.c` (`sok_move`, `sok_undo`,
  `sok_checksolution`);
* the level parser of `sok_core.c` (`readRLEbyte`, `loadlevelfromfile`
  with its flood fill and border shift, `sok_loadfile`).

C byte buffers are modelled as `List Nat`, the 64×64 playfield as a total
function `Int → Int → Nat` (cells hold byte values; the C arrays are only
ever indexed inside `[0,64)` on the paths modelled here), C strings as
`List Char`, and C `int` values as `Int`.  File and directory I/O
(`solution_load`'s file lookup, `solution_save`'s file write, comment
storage buffers) is outside the model: the codec is modelled on the byte
buffers themselves, `sok_checksolution` is modelled by its return value
(its `solution_save` call is an external side effect), and games carry
`solution := none`.
-/

/-! ## Constants from sok_core.h -/

def field_floor : Nat := 1
def field_atom : Nat := 2
def field_goal : Nat := 4
def field_wall : Nat := 8

def sokmove_pushed : Nat := 1
def sokmove_ongoal : Nat := 2
def sokmove_solved : Nat := 4

def ERR_UNDEFINED : Int := -1
def ERR_LEVEL_TOO_HIGH : Int := -2
def ERR_LEVEL_TOO_LARGE : Int := -3
def ERR_LEVEL_TOO_SMALL : Int := -4
def ERR_MEM_ALLOC_FAILED : Int := -5
def ERR_NO_LEVEL_DATA_FOUND : Int := -6
def ERR_TOO_MANY_LEVELS_IN_SET : Int := -7
def ERR_UNABLE_TO_OPEN_FILE : Int := -8
def ERR_PLAYER_POS_UNDEFINED : Int := -9

/-! ## History codec (save.c)

`enum solmoves` gives codes 0..7 to u,l,d,r,U,L,D,R and 8 to `solmove_ERR`. -/

/-- `xsb2byte` from save.c: move character to solution code (8 = `solmove_ERR`). -/
def xsb2byte (c : Char) : Nat :=
  match c with
  | 'u' => 0
  | 'l' => 1
  | 'd' => 2
  | 'r' => 3
  | 'U' => 4
  | 'L' => 5
  | 'D' => 6
  | 'R' => 7
  | _ => 8

/-- `byte2xsb` from save.c: solution code back to a move character
(codes above 7 yield the corruption marker). -/
def byte2xsb (b : Nat) : Char :=
  match b with
  | 0 => 'u'
  | 1 => 'l'
  | 2 => 'd'
  | 3 => 'r'
  | 4 => 'U'
  | 5 => 'L'
  | 6 => 'D'
  | 7 => 'R'
  | _ => '!'

/-- The encoding loop of `solution_save` (save.c lines 266-285).  State:
`lastbyte` (a C `int`, initially -1) and `lastbytecount`.  The C loop reads
the NUL terminator as one more character whose code is `solmove_ERR`;
the `[]` case below plays that role. -/
def solution_save_rle (lastbyte : Int) (lastbytecount : Nat) : List Char → List Nat
  | [] =>
    -- curbyte = xsb2byte of the NUL terminator = solmove_ERR = 8
    if (8 : Int) = lastbyte ∧ lastbytecount < 15 then []
    else if 0 < lastbytecount then [lastbytecount * 16 + lastbyte.toNat]
    else []
  | c :: rest =>
    let curbyte : Int := (xsb2byte c : Nat)
    if curbyte = lastbyte ∧ lastbytecount < 15 then
      -- same pattern: increment the RLE counter, then break if curbyte is ERR
      if curbyte = 8 then [] else solution_save_rle lastbyte (lastbytecount + 1) rest
    else
      -- dump the lastbyte chunk, then start a fresh run; break if curbyte is ERR
      (if 0 < lastbytecount then [lastbytecount * 16 + lastbyte.toNat] else []) ++
        (if curbyte = 8 then [] else solution_save_rle curbyte 1 rest)

/-- `solution_save`'s byte output for a history string (the file path and
CRC key handling are external I/O). -/
def solution_save_encode (solution : List Char) : List Nat :=
  solution_save_rle (-1) 0 solution

/-- The inner `while (rlecounter > 0)` loop of `solution_load`
(save.c lines 217-238): emit `rlecounter` copies of `byte2xsb bytebuff`,
failing (`none`) if the decoded character is the corruption marker. -/
def byte2xsbRun (bytebuff : Nat) : Nat → Option (List Char)
  | 0 => some []
  | n + 1 =>
    if byte2xsb bytebuff = '!' then none
    else
      match byte2xsbRun bytebuff n with
      | none => none
      | some l => some (byte2xsb bytebuff :: l)

/-- The decoding loop of `solution_load` (save.c lines 212-240): for each
byte, the high nibble is the RLE counter and the low nibble the code; a
corrupt code aborts the whole decode with no result. -/
def solution_load_decode : List Nat → Option (List Char)
  | [] => some []
  | b :: rest =>
    match byte2xsbRun (b % 16) (b / 16) with
    | none => none
    | some run =>
      match solution_load_decode rest with
      | none => none
      | some tail => some (run ++ tail)

/-- The 8-character history alphabet. -/
def sokAlphabet : List Char := ['u', 'l', 'd', 'r', 'U', 'L', 'D', 'R']

/-! ## Data model (sok_core.h) -/

/-- `struct sokgame`.  The 64×64 byte array `field` is modelled as a total
function on `Int` coordinates (`field x y` is C's `field[x][y]`); the
`comment` buffer and the two CRC values are not needed by callers modelled
here, but the exact byte sequences fed to the two CRC routines (whose
implementations live outside this repository's core sources) are kept as
`crc32_106_input` and `crc64_input`. -/
structure Sokgame where
  field_width : Nat
  field_height : Nat
  field : Int → Int → Nat
  positionx : Int
  positiony : Int
  crc32_106_input : List Nat
  crc64_input : List Nat
  level : Nat
  solution : Option (List Char)

/-- `struct sokgamestates` (the `historyallocsize` bookkeeping is dropped:
the history is an unbounded list, so the realloc path of `sok_move` never
fails in the model). -/
structure Sokgamestates where
  angle : Int
  history : List Char

/-- `enum SOKMOVE`. -/
inductive SOKMOVE where
  | sokmoveNONE
  | sokmoveUP
  | sokmoveLEFT
  | sokmoveDOWN
  | sokmoveRIGHT
deriving DecidableEq

/-- Write a single cell of a field function (C array assignment
`field[px][py] = v`). -/
def updCell (f : Int → Int → Nat) (px py : Int) (v : Nat) : Int → Int → Nat :=
  fun a b => if a = px ∧ b = py then v else f a b

/-- C's `field[px][py] |= flags` on a field function. -/
def orCell (f : Int → Int → Nat) (px py : Int) (flags : Nat) : Int → Int → Nat :=
  fun a b => if a = px ∧ b = py then f a b ||| flags else f a b

/-- C's `field[px][py] &= mask` on a field function. -/
def andCell (f : Int → Int → Nat) (px py : Int) (mask : Nat) : Int → Int → Nat :=
  fun a b => if a = px ∧ b = py then f a b &&& mask else f a b

/-- `sok_history_getlen`: length of the history string. -/
def sok_history_getlen (history : List Char) : Nat := history.length

/-- `sok_history_getpushes`: number of uppercase (push) characters. -/
def sok_history_getpushes (history : List Char) : Nat :=
  history.countP (fun c => decide ('A' ≤ c ∧ c ≤ 'Z'))

/-- `sok_newstates` / `sok_resetstates`: zeroed state with empty history. -/
def sok_newstates : Sokgamestates := { angle := 0, history := [] }

/-- `sok_checksolution` (sok_core.c lines 452-476), modelled by its return
value: 0 if some goal cell lacks an atom, 0 if `states` is NULL, 0 if the
history holds no push, otherwise 1.  The "save the better solution" block
before `return(1)` only performs external file I/O and does not affect the
returned value. -/
def sok_checksolution (game : Sokgame) (states : Option Sokgamestates) : Int :=
  if (List.range game.field_height).all (fun y =>
       (List.range game.field_width).all (fun x =>
         !(game.field (x : Int) (y : Int) &&& field_goal != 0 &&
           game.field (x : Int) (y : Int) &&& field_atom == 0))) then
    match states with
    | none => 0
    | some st => if sok_history_getpushes st.history = 0 then 0 else 1
  else 0

/-- `sok_move` (sok_core.c lines 479-545).  `validitycheck ≠ 0` is modelled
as `validitycheck = true`.  Returns the C return value together with the
(possibly) updated game and states; note that `states->angle` is assigned
inside the direction `switch`, before any rejection check, exactly as in
the C code.  The history-buffer realloc (which can return
`ERR_MEM_ALLOC_FAILED`) cannot fail in the model. -/
def sok_move (game : Sokgame) (dir : SOKMOVE) (validitycheck : Bool)
    (states : Sokgamestates) : Int × Sokgame × Sokgamestates :=
  let alreadysolved := sok_checksolution game none
  let x := game.positionx
  let y := game.positiony
  -- the switch on dir: (vectorx, vectory, angle, historychar)
  let mv : Int × Int × Int × Char :=
    match dir with
    | SOKMOVE.sokmoveNONE | SOKMOVE.sokmoveUP => (0, -1, 0, 'u')
    | SOKMOVE.sokmoveRIGHT => (1, 0, 90, 'r')
    | SOKMOVE.sokmoveDOWN => (0, 1, 180, 'd')
    | SOKMOVE.sokmoveLEFT => (-1, 0, 270, 'l')
  let vectorx := mv.1
  let vectory := mv.2.1
  let states1 : Sokgamestates := { states with angle := mv.2.2.1 }
  let historychar := mv.2.2.2
  if y < 1 then (-1, game, states1)
  else if game.field (x + vectorx) (y + vectory) &&& field_wall ≠ 0 then
    (-1, game, states1)
  else
    -- is there an atom on our way?
    let ispush := game.field (x + vectorx) (y + vectory) &&& field_atom ≠ 0
    if ispush ∧ alreadysolved ≠ 0 then (-1, game, states1)
    else if ispush ∧ (y + vectory < 1 ∨ y + vectory > 62 ∨
                      x + vectorx < 1 ∨ x + vectorx > 62) then (-1, game, states1)
    else if ispush ∧
        game.field (x + vectorx * 2) (y + vectory * 2) &&& (field_wall ||| field_atom) ≠ 0 then
      (-1, game, states1)
    else
      let res0 : Nat :=
        if ispush then
          sokmove_pushed |||
            (if game.field (x + vectorx * 2) (y + vectory * 2) &&& field_goal ≠ 0 then
              sokmove_ongoal else 0)
        else 0
      -- uppercase marks a push, applied only on a committed move
      let hchar := if ispush ∧ validitycheck = false then
          Char.ofNat (historychar.toNat - 32) else historychar
      let fieldA := andCell game.field (x + vectorx) (y + vectory) 253  -- &= ~field_atom on a byte
      let fieldB := orCell fieldA (x + vectorx * 2) (y + vectory * 2) field_atom
      let game1 := if ispush ∧ validitycheck = false then
          { game with field := fieldB } else game
      if validitycheck = false then
        let states2 := { states1 with history := states1.history ++ [hchar] }
        let game2 := { game1 with positionx := game1.positionx + vectorx,
                                  positiony := game1.positiony + vectory }
        let res : Nat := if alreadysolved = 0 ∧ sok_checksolution game2 (some states2) ≠ 0 then
            res0 ||| sokmove_solved else res0
        ((res : Int), game2, states2)
      else
        let res : Nat := if alreadysolved = 0 ∧ sok_checksolution game (some states1) ≠ 0 then
            res0 ||| sokmove_solved else res0
        ((res : Int), game, states1)

/-- `sok_undo` (sok_core.c lines 570-606). -/
def sok_undo (game : Sokgame) (states : Sokgamestates) : Sokgame × Sokgamestates :=
  if states.history = [] then (game, states)
  else
    let c := states.history.getLastD ' '
    -- the switch on the last history character: movex/movey, and the angle
    -- (an unmatched character leaves all three untouched, as in C)
    let mv : Int × Int :=
      match c with
      | 'u' | 'U' => (0, 1)
      | 'r' | 'R' => (-1, 0)
      | 'd' | 'D' => (0, -1)
      | 'l' | 'L' => (1, 0)
      | _ => (0, 0)
    let angle1 : Int :=
      match c with
      | 'u' | 'U' => 0
      | 'r' | 'R' => 90
      | 'd' | 'D' => 180
      | 'l' | 'L' => 270
      | _ => states.angle
    let movex := mv.1
    let movey := mv.2
    -- if it was a PUSH action, move the atom back
    let field1 :=
      if 'A' ≤ c ∧ c ≤ 'Z' then
        orCell (andCell game.field (game.positionx - movex) (game.positiony - movey) 253)
          game.positionx game.positiony field_atom
      else game.field
    ({ game with field := field1,
                 positionx := game.positionx + movex,
                 positiony := game.positiony + movey },
     { states with angle := angle1, history := states.history.dropLast })

/-! ## Level parser (sok_core.c lines 124-344, 379-437)

`readbytefrommem` returns -1 at the end of the buffer or on a NUL byte;
in the model a byte list plays the buffer and `none` plays -1 (after a
NUL the C pointer is still advanced, but every caller stops reading, so
the leftover suffix is never observed). -/

/-- The RLE-prefix loop of `readRLEbyte` (sok_core.c lines 136-154):
accumulate decimal digits into `rlepref` (a C `int`, initially -1), stop
at the first non-digit byte. -/
def readRLEbyteAux (rlepref : Int) : List Nat → Option (Int × Nat × List Nat)
  | [] => none
  | b :: rest =>
    if b = 0 then none
    else if 48 ≤ b ∧ b ≤ 57 then
      readRLEbyteAux ((if 0 < rlepref then rlepref * 10 else 0) + ((b : Int) - 48)) rest
    else some (rlepref, b, rest)

/-- `readRLEbyte`: repetition count (default 1 when no digits were seen)
plus the data byte and the remaining buffer. -/
def readRLEbyte (buf : List Nat) : Option (Nat × Nat × List Nat) :=
  match readRLEbyteAux (-1) buf with
  | none => none
  | some (rlepref, b, rest) => some ((if rlepref < 0 then 1 else rlepref.toNat), b, rest)

/-- Parser state of `loadlevelfromfile`'s main loop (its local variables). -/
structure ParseSt where
  x : Nat
  y : Nat
  field : Int → Int → Nat
  positionx : Int
  positiony : Int
  field_width : Nat
  field_height : Nat
  leveldatastarted : Int
  endoffile : Bool
  buf : List Nat

/-- The comment branch of `loadlevelfromfile` (lines 238-253): consume
bytes up to a newline or the end of the buffer, skipping CR.  Returns
whether the end of file was hit (the comment text itself is only copied
into the pre/post comment buffers, which no modelled claim observes). -/
def commentSkip : List Nat → Bool × List Nat
  | [] => (true, [])
  | b :: rest =>
    if b = 0 then (true, rest)
    else if b = 13 then commentSkip rest
    else if b = 10 then (false, rest)
    else commentSkip rest

/-- One character of the parser `switch` (lines 199-269).  Returns the new
value of `bytebuff` (the comment branch overwrites it with the newline, or
with a dead value once `endoffile` is set) and the updated state. -/
def charStep (bytebuff : Nat) (st : ParseSt) : Nat × ParseSt :=
  let px : Int := (st.x : Int) + 1
  let py : Int := (st.y : Int) + 1
  match bytebuff with
  | 32 | 45 | 95 =>  -- space, dash, underscore: floor
    (bytebuff, { st with field := orCell st.field px py field_floor, x := st.x + 1 })
  | 35 =>  -- wall
    (bytebuff, { st with field := orCell st.field px py field_wall, x := st.x + 1 })
  | 64 =>  -- player
    (bytebuff, { st with field := orCell st.field px py field_floor,
                         positionx := (st.x : Int), positiony := (st.y : Int),
                         x := st.x + 1 })
  | 42 =>  -- atom on goal ('*' sets goal then falls through to atom)
    (bytebuff, { st with field := orCell (orCell st.field px py field_goal) px py field_atom,
                         x := st.x + 1 })
  | 36 =>  -- atom
    (bytebuff, { st with field := orCell st.field px py field_atom, x := st.x + 1 })
  | 43 =>  -- player on goal ('+' sets the position then falls through to goal)
    (bytebuff, { st with field := orCell st.field px py field_goal,
                         positionx := (st.x : Int), positiony := (st.y : Int),
                         x := st.x + 1 })
  | 46 =>  -- goal
    (bytebuff, { st with field := orCell st.field px py field_goal, x := st.x + 1 })
  | 10 | 124 =>  -- newline or '|': next row
    (bytebuff, { st with y := if st.leveldatastarted ≠ 0 then st.y + 1 else st.y, x := 0 })
  | 13 =>  -- CR: ignore
    (bytebuff, st)
  | _ =>  -- anything else starts a comment
    let sk := commentSkip st.buf
    ((if sk.1 then 0 else 10),
     { st with buf := sk.2,
               endoffile := st.endoffile ∨ sk.1,
               leveldatastarted := if st.leveldatastarted ≠ 0 then -1
                                   else st.leveldatastarted })

/-- The inner `for (; rleprefix > 0; rleprefix--)` loop (lines 198-276):
process the byte `rleprefix` times, rechecking the break condition and the
bound/extent updates after every character exactly as the C code does. -/
def processChunk : Nat → Nat → ParseSt → Except Int ParseSt
  | 0, _, st => Except.ok st
  | n + 1, bytebuff, st =>
    let r := charStep bytebuff st
    let st2 := r.2
    if st2.leveldatastarted < 0 ∨ st2.endoffile then Except.ok st2
    else
      let st3 := if 0 < st2.x then { st2 with leveldatastarted := 1 } else st2
      if 62 ≤ st3.x then Except.error ERR_LEVEL_TOO_LARGE
      else if 62 ≤ st3.y then Except.error ERR_LEVEL_TOO_HIGH
      else
        let st4 := if st3.field_width < st3.x then { st3 with field_width := st3.x } else st3
        let st5 := if st4.field_height ≤ st4.y ∧ 0 < st4.x then
            { st4 with field_height := st4.y + 1 } else st4
        processChunk n r.1 st5

/-- The outer `for (;;)` loop of `loadlevelfromfile` (lines 193-278),
fuelled by the buffer length (every successful `readRLEbyte` consumes at
least one byte, so `buf.length + 1` units of fuel always suffice; the
fuel-exhausted result is never reached then). -/
def levelLoop : Nat → ParseSt → Except Int ParseSt
  | 0, _ => Except.error ERR_UNDEFINED
  | fuel + 1, st =>
    match readRLEbyte st.buf with
    | none => Except.ok { st with endoffile := true }
    | some (rlepref, bytebuff, rest) =>
      match processChunk rlepref bytebuff { st with buf := rest } with
      | Except.error e => Except.error e
      | Except.ok st2 =>
        if st2.leveldatastarted < 0 ∨ st2.endoffile then Except.ok st2
        else levelLoop fuel st2

/-- The initial 64×64 floor fill (lines 183-188); outside the array the
model returns 0 (the flood fill never leaves `[0,64)²`). -/
def initfield : Int → Int → Nat :=
  fun x y => if 0 ≤ x ∧ x < 64 ∧ 0 ≤ y ∧ y < 64 then field_floor else 0

/-- Run the main parsing loop of `loadlevelfromfile` on a buffer. -/
def parseLevelBody (buf : List Nat) : Except Int ParseSt :=
  levelLoop (buf.length + 1)
    { x := 0, y := 0, field := initfield, positionx := -1, positiony := -1,
      field_width := 0, field_height := 0, leveldatastarted := 0,
      endoffile := false, buf := buf }

/-- `floodFillField` (lines 157-165), fuelled: the C recursion clears one
cell per non-leaf level, so its depth is at most 64·64+1 and `8192` units
of fuel always reproduce it exactly. -/
def floodFillField (fuel : Nat) (f : Int → Int → Nat) (x y : Int) : Int → Int → Nat :=
  match fuel with
  | 0 => f
  | fuel + 1 =>
    if 0 ≤ x ∧ x < 64 ∧ 0 ≤ y ∧ y < 64 ∧ f x y = field_floor then
      let f0 := updCell f x y 0
      let f1 := floodFillField fuel f0 (x + 1) y
      let f2 := floodFillField fuel f1 (x - 1) y
      let f3 := floodFillField fuel f2 x (y + 1)
      floodFillField fuel f3 x (y - 1)
    else f

def floodfill_fuel : Nat := 8192

/-- The border shift (lines 290-294): move the field by (-1,-1); indices
63 keep their old value, as in the C loops which only cover `[0,63)`. -/
def shiftField (f : Int → Int → Nat) : Int → Int → Nat :=
  fun x y => if 0 ≤ x ∧ x < 63 ∧ 0 ≤ y ∧ y < 63 then f (x + 1) (y + 1) else f x y

/-- The success tail of `loadlevelfromfile` (lines 286-341): flood fill
from the border corner (63,63), shift the field by (-1,-1), and build the
game.  `crc32_106_input` is the byte sequence the v1.0.6-compat CRC32 loop
(lines 300-306) feeds: it runs after the border shift, with `y` bounded by
`field_width` and `x` by `field_height`, and never includes the player
position.  `crc64_input` is the byte sequence of the CRC64 code
(lines 309-339): the 2 player-position bytes, then the shifted field in
row-major order over the true extents. -/
def gameOfSt (st : ParseSt) : Sokgame :=
  let filled := floodFillField floodfill_fuel st.field 63 63
  let shifted := shiftField filled
  { field_width := st.field_width, field_height := st.field_height,
    field := shifted, positionx := st.positionx, positiony := st.positiony,
    crc32_106_input :=
      (List.range st.field_width).flatMap (fun y =>
        (List.range st.field_height).map (fun x => shifted (Int.ofNat x) (Int.ofNat y))),
    crc64_input :=
      [st.positionx.toNat % 256, st.positiony.toNat % 256] ++
      (List.range st.field_height).flatMap (fun y =>
        (List.range st.field_width).map (fun x => shifted (Int.ofNat x) (Int.ofNat y))),
    level := 0, solution := none }

/-- `loadlevelfromfile` (lines 169-344): returns the C return code
(0 = success, 1 = success with end of file reached, negative = error), the
parsed game when successful, and the advanced buffer. -/
def loadlevelfromfile (buf : List Nat) : Int × Option Sokgame × List Nat :=
  match parseLevelBody buf with
  | Except.error e => (e, none, buf)
  | Except.ok st =>
    if st.positionx < 0 then (ERR_PLAYER_POS_UNDEFINED, none, st.buf)
    else if st.field_height < 1 then (ERR_LEVEL_TOO_SMALL, none, st.buf)
    else if st.field_width < 1 then (ERR_LEVEL_TOO_SMALL, none, st.buf)
    else if st.leveldatastarted = 0 then (ERR_NO_LEVEL_DATA_FOUND, none, st.buf)
    else ((if st.endoffile then 1 else 0), some (gameOfSt st), st.buf)

/-- The level-loading loop of `sok_loadfile` (lines 402-437), fuelled by
the buffer length (every successfully parsed level consumes at least one
byte).  A negative `errflag` after the loop frees every parsed game and
returns only the error, which the model renders as the empty list;
`solution_load` is file I/O, so `solution` stays `none`. -/
def sok_loadfileLoop : Nat → List Nat → Nat → Nat → List Sokgame → Int × List Sokgame
  | 0, _, _, _, _ => (ERR_UNDEFINED, [])
  | fuel + 1, buf, maxlevels, level, acc =>
    match loadlevelfromfile buf with
    | (errflag, gameOpt, rest) =>
      if errflag < 0 then
        (if 0 < level then ((level : Int), acc) else (errflag, []))
      else if maxlevels ≤ level then (ERR_TOO_MANY_LEVELS_IN_SET, [])
      else
        match gameOpt with
        | none => (ERR_UNDEFINED, [])  -- unreachable: errflag ≥ 0 comes with a game
        | some game =>
          let game1 := { game with level := level + 1, solution := none }
          if errflag = 0 then sok_loadfileLoop fuel rest maxlevels (level + 1) (acc ++ [game1])
          else (((level : Int) + 1), acc ++ [game1])

/-- `sok_loadfile` on an in-memory buffer (the `gamelevel` file-loading and
gzip branches are external): the return value and the game list the caller
ends up with. -/
def sok_loadfile (buf : List Nat) (maxlevels : Nat) : Int × List Sokgame :=
  sok_loadfileLoop (buf.length + 1) buf maxlevels 0 []

/-! ## Spec-side definitions

These follow the wording of the specification (and, for the corrected
claims, the amended wording), to be compared with the definitions embedded
from the source above. -/

/-- The byte sequence fed to the legacy CRC32 by the code, as a function of
the input buffer (`none` when parsing fails). -/
def legacy_hash_input_of (buf : List Nat) : Option (List Nat) :=
  ((loadlevelfromfile buf).2.1).map (fun g => g.crc32_106_input)

/-- The byte sequence the legacy CRC32 loop of the claim feeds for a given
final parser state: the grid buffer **before** the (-1,-1) border shift
(but after the flood fill, which precedes the CRC in the code), iterated
with `y` bounded by `field_width` and `x` bounded by `field_height`. -/
def legacy_claim_bytes (st : ParseSt) : List Nat :=
  (List.range st.field_width).flatMap (fun y =>
    (List.range st.field_height).map (fun x =>
      floodFillField floodfill_fuel st.field 63 63 (Int.ofNat x) (Int.ofNat y)))

/-- The legacy CRC32 input as the claim describes it, as a function of the
input buffer: same success conditions as `loadlevelfromfile`, but the grid
is read before the border shift. -/
def legacy_hash_input_claimed (buf : List Nat) : Option (List Nat) :=
  match parseLevelBody buf with
  | Except.error _ => none
  | Except.ok st =>
    if st.positionx < 0 then none
    else if st.field_height < 1 then none
    else if st.field_width < 1 then none
    else if st.leveldatastarted = 0 then none
    else some (legacy_claim_bytes st)

/-- The legacy CRC32 input as amended: computed **after** the border
shift, over the level's final grid, iterating with the `y` index bounded
by `field_width` and the `x` index bounded by `field_height` (axes swapped
relative to the real extents), and without the player position. -/
def legacy_hash_input_amended (g : Sokgame) : List Nat :=
  (List.range g.field_width).flatMap (fun y =>
    (List.range g.field_height).map (fun x => g.field (Int.ofNat x) (Int.ofNat y)))

/-- The facing angle `sok_move`'s direction switch assigns. -/
def sokmove_angle : SOKMOVE → Int
  | SOKMOVE.sokmoveNONE | SOKMOVE.sokmoveUP => 0
  | SOKMOVE.sokmoveRIGHT => 90
  | SOKMOVE.sokmoveDOWN => 180
  | SOKMOVE.sokmoveLEFT => 270

/-- The solved condition as the spec states it: every goal cell within
`[0,width)×[0,height)` also carries the atom flag. -/
def allGoalsFilled (game : Sokgame) : Prop :=
  ∀ x y : Nat, x < game.field_width → y < game.field_height →
    game.field (x : Int) (y : Int) &&& field_goal ≠ 0 →
    game.field (x : Int) (y : Int) &&& field_atom ≠ 0

/-- Two game/state pairs agree on player position, field and history (the
components the undo round-trip restores; the facing angle is a
presentation hint and is not restored). -/
def agreeGS (a b : Sokgame × Sokgamestates) : Prop :=
  a.1.field = b.1.field ∧ a.1.positionx = b.1.positionx ∧
  a.1.positiony = b.1.positiony ∧ a.2.history = b.2.history

/-- Every cell of the game's field is a byte value, as in the C struct. -/
def cellsOk (game : Sokgame) : Prop := ∀ x y : Int, game.field x y < 256

/-- Apply one authoritative (committed) move. -/
def applyMove (gs : Sokgame × Sokgamestates) (d : SOKMOVE) : Sokgame × Sokgamestates :=
  (sok_move gs.1 d false gs.2).2

/-- Apply a sequence of authoritative moves. -/
def applyMoves (gs : Sokgame × Sokgamestates) (ds : List SOKMOVE) : Sokgame × Sokgamestates :=
  ds.foldl applyMove gs

/-- Every move of the sequence, applied in order, returns a non-negative
value (is accepted). -/
def movesSucceed : Sokgame × Sokgamestates → List SOKMOVE → Prop
  | _, [] => True
  | gs, d :: ds => 0 ≤ (sok_move gs.1 d false gs.2).1 ∧ movesSucceed (applyMove gs d) ds

/-- One `sok_undo` on a game/state pair. -/
def undoPair (gs : Sokgame × Sokgamestates) : Sokgame × Sokgamestates :=
  sok_undo gs.1 gs.2

/-- `n` successive `sok_undo` calls. -/
def undoN : Nat → Sokgame × Sokgamestates → Sokgame × Sokgamestates
  | 0, gs => gs
  | n + 1, gs => undoN n (undoPair gs)

/-! ## Concrete instances used by the claims -/

/-- Build a field function from a list of `|=` cell writes over the
initial all-floor grid. -/
def mkField (l : List (Int × Int × Nat)) : Int → Int → Nat :=
  l.foldl (fun f t => orCell f t.1 t.2.1 t.2.2) initfield

/-- The bytes of the level block `"@$."`. -/
def c3bytes : List Nat := [64, 36, 46]

/-- The parser state `"@$."` produces (pinned below by `c3bytes_parse`). -/
def c3st : ParseSt :=
  { x := 3, y := 0,
    field := mkField [(1, 1, 1), (2, 1, 2), (3, 1, 4)],
    positionx := 0, positiony := 0, field_width := 3, field_height := 1,
    leveldatastarted := 1, endoffile := true, buf := [] }

/-- The level `"@$."` parses to. -/
def c3game : Sokgame := gameOfSt c3st

/-- The bytes of the level block `"#@"`: a wall at (0,0) and the player at
(1,0). -/
def c6bytes : List Nat := [35, 64]

/-- The parser state `"#@"` produces (pinned below by `c6bytes_parse`). -/
def c6st : ParseSt :=
  { x := 2, y := 0,
    field := mkField [(1, 1, 8), (2, 1, 1)],
    positionx := 1, positiony := 0, field_width := 2, field_height := 1,
    leveldatastarted := 1, endoffile := true, buf := [] }

/-- The level `"#@"` parses to. -/
def c6game : Sokgame := gameOfSt c6st

/-- The bytes of `"@;\n@"`: two one-cell level blocks separated by a
comment line. -/
def c7bytes : List Nat := [64, 59, 10, 64]

/-- A small hand-built game: floor row at `y = 1` with the player at
(1,1), an atom at (2,1) and a goal at (3,1); width 4, height 2. -/
def demo_game : Sokgame :=
  { field_width := 4, field_height := 2,
    field := fun x y =>
      if x = 1 ∧ y = 1 then 1
      else if x = 2 ∧ y = 1 then 3
      else if x = 3 ∧ y = 1 then 5
      else if 0 ≤ x ∧ x < 64 ∧ 0 ≤ y ∧ y < 64 then 1 else 0,
    positionx := 1, positiony := 1,
    crc32_106_input := [], crc64_input := [], level := 1, solution := none }

/-- A fresh state for `demo_game`. -/
def demo_states : Sokgamestates := { angle := 0, history := [] }

/-- A game whose board is already solved (its only goal, at (5,1), holds
an atom) while a free atom at (2,1) can still be pushed by the player at
(1,1); width 6, height 2. -/
def c2game : Sokgame :=
  { field_width := 6, field_height := 2,
    field := fun x y =>
      if x = 2 ∧ y = 1 then 3
      else if x = 5 ∧ y = 1 then 7
      else if 0 ≤ x ∧ x < 64 ∧ 0 ≤ y ∧ y < 64 then 1 else 0,
    positionx := 1, positiony := 1,
    crc32_106_input := [], crc64_input := [], level := 1, solution := none }

/-- A state whose history already records one push. -/
def c2states : Sokgamestates := { angle := 0, history := ['R'] }

/-! ## Helper lemmas -/

set_option maxRecDepth 2000 in
/-- Clearing then re-setting the atom bit of a byte that had it is the
identity. -/
theorem byte_and253_or2 : ∀ t : Nat, t < 256 → t &&& 2 ≠ 0 → (t &&& 253) ||| 2 = t := by
  decide

set_option maxRecDepth 2000 in
/-- Setting then clearing the atom bit of a byte that lacked it is the
identity. -/
theorem byte_or2_and253 : ∀ t : Nat, t < 256 → t &&& 2 = 0 → (t ||| 2) &&& 253 = t := by
  decide

/-- `sok_checksolution` called with a NULL states pointer always returns 0
(sok_core.c line 462): the push count of a missing history can never be
consulted. -/
theorem sok_checksolution_none (game : Sokgame) : sok_checksolution game none = 0 := by
  unfold sok_checksolution
  split <;> rfl

/-! ## C9: sokmoveNONE behaves as sokmoveUP -/

/-- C9: for every game, dry-run flag and state, `sok_move` with
`sokmoveNONE` is exactly `sok_move` with `sokmoveUP`: the direction switch
gives both the vector (0,-1), angle 0 and history character 'u', so the
results and all state effects coincide. -/
theorem sok_move_none_eq_up (g : Sokgame) (v : Bool) (s : Sokgamestates) :
    sok_move g SOKMOVE.sokmoveNONE v s = sok_move g SOKMOVE.sokmoveUP v s := rfl

/-! ## C10: run-length-0 bytes in solution decoding -/

/-- C10: during solution decoding, a byte whose high nibble is 0 is
consumed and contributes nothing, whatever its low nibble (so it never
trips the corrupt-solution path even when the code nibble exceeds 7);
a byte with a non-zero run length and a code nibble above 7 aborts the
whole decode with no result. -/
theorem solution_load_zero_run_skipped :
    (∀ (b : Nat) (rest : List Nat), b / 16 = 0 →
       solution_load_decode (b :: rest) = solution_load_decode rest) ∧
    (∀ (b : Nat) (rest : List Nat), b / 16 ≠ 0 → 7 < b % 16 →
       solution_load_decode (b :: rest) = none) := by
  constructor
  · intro b rest h
    have hrun : byte2xsbRun (b % 16) (b / 16) = some [] := by rw [h]; rfl
    simp only [solution_load_decode, hrun]
    cases h2 : solution_load_decode rest <;> simp [h2]
  · intro b rest h hb
    have hbang : byte2xsb (b % 16) = '!' := by
      have hm : b % 16 < 16 := Nat.mod_lt _ (by norm_num)
      set m := b % 16 with hmdef
      interval_cases m <;> rfl
    obtain ⟨n, hn⟩ : ∃ n, b / 16 = n + 1 := ⟨b / 16 - 1, by omega⟩
    simp only [solution_load_decode]
    rw [hn]
    simp [byte2xsbRun, hbang]

/-- Witness for C10 at concrete bytes: 15 = (0 << 4) | 15 is skipped even
though its code nibble is invalid, while 24 = (1 << 4) | 8 aborts. -/
theorem solution_load_zero_run_skipped_witness :
    solution_load_decode (15 :: [16]) = solution_load_decode [16] ∧
    solution_load_decode (24 :: []) = none :=
  ⟨solution_load_zero_run_skipped.1 15 [16] (by decide),
   solution_load_zero_run_skipped.2 24 [] (by decide) (by decide)⟩

/-! ## C2: pushes are not rejected on an already solved board -/

/-- C2 (code bug): on `c2game`/`c2states` the board is solved in the
claim's sense (every goal cell holds an atom and the history records a
push), the cell the player would enter holds an atom, yet the
authoritative right move is not rejected: it returns 5
(`pushed ||| solved`), moves the atom from (2,1) to (3,1), moves the
player, and appends 'R'.  The rejection branch
`if (alreadysolved != 0) return(-1)` of sok_core.c line 526 is
unreachable: `alreadysolved` is computed by `sok_checksolution(game,
NULL)`, which always returns 0 when `states` is NULL (line 462). -/
theorem sok_move_push_on_solved_board :
    ((∀ x : Nat, x < c2game.field_width → ∀ y : Nat, y < c2game.field_height →
        c2game.field (x : Int) (y : Int) &&& field_goal ≠ 0 →
        c2game.field (x : Int) (y : Int) &&& field_atom ≠ 0) ∧
     1 ≤ sok_history_getpushes c2states.history) ∧
    sok_checksolution c2game (some c2states) = 1 ∧
    c2game.field (c2game.positionx + 1) c2game.positiony &&& field_atom ≠ 0 ∧
    (sok_move c2game SOKMOVE.sokmoveRIGHT false c2states).1 = 5 ∧
    (sok_move c2game SOKMOVE.sokmoveRIGHT false c2states).2.1.field 3 1 = 3 ∧
    c2game.field 3 1 = 1 ∧
    (sok_move c2game SOKMOVE.sokmoveRIGHT false c2states).2.1.positionx = 2 ∧
    (sok_move c2game SOKMOVE.sokmoveRIGHT false c2states).2.2.history = ['R', 'R'] := by
  decide

/-! ## C4: the solved check -/

/-- C4: for every game and (non-NULL) states, `sok_checksolution` reports
solved exactly when every goal-flagged cell inside
`[0,width)×[0,height)` also carries the atom flag and the history holds at
least one uppercase (push) character; in particular a board with no
unfilled goal but no recorded push is not solved. -/
theorem sok_checksolution_iff (game : Sokgame) (st : Sokgamestates) :
    sok_checksolution game (some st) ≠ 0 ↔
      (allGoalsFilled game ∧ ∃ c ∈ st.history, 'A' ≤ c ∧ c ≤ 'Z') := by
  have hpush : sok_history_getpushes st.history ≠ 0 ↔
      ∃ c ∈ st.history, 'A' ≤ c ∧ c ≤ 'Z' := by
    unfold sok_history_getpushes
    rw [Ne, List.countP_eq_zero]
    push_neg
    simp
  have hall : ((List.range game.field_height).all (fun y =>
       (List.range game.field_width).all (fun x =>
         !(game.field (x : Int) (y : Int) &&& field_goal != 0 &&
           game.field (x : Int) (y : Int) &&& field_atom == 0))) = true) ↔
      allGoalsFilled game := by
    simp only [List.all_eq_true, List.mem_range, Bool.not_eq_true', Bool.and_eq_false_iff,
      bne_eq_false_iff_eq, beq_eq_false_iff_ne, allGoalsFilled, ne_eq]
    constructor
    · intro h x y hx hy hg
      rcases h y hy x hx with h1 | h1
      · exact absurd h1 hg
      · exact h1
    · intro h y hy x hx
      by_cases hg : game.field (x : Int) (y : Int) &&& field_goal = 0
      · exact Or.inl hg
      · exact Or.inr (h x y hx hy hg)
  have hred : sok_checksolution game (some st) =
      if ((List.range game.field_height).all (fun y =>
         (List.range game.field_width).all (fun x =>
           !(game.field (x : Int) (y : Int) &&& field_goal != 0 &&
             game.field (x : Int) (y : Int) &&& field_atom == 0)))) then
        (if sok_history_getpushes st.history = 0 then 0 else 1)
      else 0 := rfl
  rw [hred]
  split
  next hcond =>
    rw [hall] at hcond
    split
    next hp =>
      simp only [ne_eq, not_true_eq_false, false_iff, not_and]
      intro _
      rw [← hpush]
      simp [hp]
    next hp =>
      simp only [ne_eq, one_ne_zero, not_false_eq_true, true_iff]
      exact ⟨hcond, hpush.mp hp⟩
  next hcond =>
    rw [hall] at hcond
    simp only [ne_eq, not_true_eq_false, false_iff, not_and]
    intro hfilled
    exact absurd hfilled hcond

/-! ## C1: history codec round trip -/

/-- Decoding inverts encoding on each alphabet character. -/
theorem byte2xsb_xsb2byte (c : Char) (h : c ∈ sokAlphabet) : byte2xsb (xsb2byte c) = c := by
  fin_cases h <;> rfl

/-- Alphabet characters have codes 0..7. -/
theorem xsb2byte_le (c : Char) (h : c ∈ sokAlphabet) : xsb2byte c ≤ 7 := by
  fin_cases h <;> decide

/-- Codes 0..7 never decode to the corruption marker. -/
theorem byte2xsb_ne_bang (b : Nat) (h : b ≤ 7) : byte2xsb b ≠ '!' := by
  interval_cases b <;> decide

/-- A valid run decodes to the replicated character. -/
theorem byte2xsbRun_of_le (b : Nat) (h : b ≤ 7) (n : Nat) :
    byte2xsbRun b n = some (List.replicate n (byte2xsb b)) := by
  induction n with
  | zero => rfl
  | succ k ih => simp [byte2xsbRun, byte2xsb_ne_bang b h, ih, List.replicate_succ]

/-- Invariant of the encoder loop: with a pending run of `cnt` copies of
the character with code `b` (1 ≤ cnt ≤ 15, b ≤ 7), decoding the encoder's
remaining output yields the pending run followed by the remaining
characters. -/
theorem decode_solution_save_rle (chars : List Char) : ∀ b cnt : Nat, b ≤ 7 → 0 < cnt →
    cnt ≤ 15 → (∀ c ∈ chars, c ∈ sokAlphabet) →
    solution_load_decode (solution_save_rle ((b : Nat) : Int) cnt chars) =
      some (List.replicate cnt (byte2xsb b) ++ chars) := by
  induction chars with
  | nil =>
    intro b cnt hb h1 h15 _
    have h8 : ¬(((8 : Nat) : Int) = ((b : Nat) : Int) ∧ cnt < 15) := by
      intro hx
      have := hx.1
      omega
    have hmod : (cnt * 16 + b) % 16 = b := by omega
    have hdiv : (cnt * 16 + b) / 16 = cnt := by omega
    simp only [solution_save_rle]
    rw [if_neg (by exact_mod_cast h8), if_pos h1]
    simp only [Int.toNat_ofNat, solution_load_decode, hmod, hdiv,
      byte2xsbRun_of_le b hb]
  | cons c rest ih =>
    intro b cnt hb h1 h15 hmem
    have hc : c ∈ sokAlphabet := hmem c (by simp)
    have hrest : ∀ c' ∈ rest, c' ∈ sokAlphabet := fun c' h' => hmem c' (by simp [h'])
    have hcur7 : xsb2byte c ≤ 7 := xsb2byte_le c hc
    have hc8 : ¬((xsb2byte c : Nat) : Int) = ((8 : Nat) : Int) := by
      intro hx
      have : xsb2byte c = 8 := by exact_mod_cast hx
      omega
    simp only [solution_save_rle]
    by_cases heq : ((xsb2byte c : Nat) : Int) = ((b : Nat) : Int) ∧ cnt < 15
    · rw [if_pos heq, if_neg (by exact_mod_cast hc8)]
      have hbc : xsb2byte c = b := by exact_mod_cast heq.1
      rw [ih b (cnt + 1) hb (by omega) (by omega) hrest]
      have hcb : byte2xsb b = c := by rw [← hbc]; exact byte2xsb_xsb2byte c hc
      congr 1
      rw [List.replicate_succ', List.append_assoc, List.singleton_append, hcb]
    · rw [if_neg heq, if_pos h1, if_neg (by exact_mod_cast hc8)]
      have hmod : (cnt * 16 + b) % 16 = b := by omega
      have hdiv : (cnt * 16 + b) / 16 = cnt := by omega
      rw [Int.toNat_ofNat, List.singleton_append]
      simp only [solution_load_decode, hmod, hdiv, byte2xsbRun_of_le b hb]
      rw [ih (xsb2byte c) 1 hcur7 (by omega) (by omega) hrest]
      simp [byte2xsb_xsb2byte c hc]
  
/-- C1: for every history over the 8-character alphabet, decoding the
nibble-packed RLE encoding written by `solution_save` with
`solution_load`'s loop yields exactly the original history, order and
case preserved. -/
theorem solution_roundtrip (h : List Char) (hval : ∀ c ∈ h, c ∈ sokAlphabet) :
    solution_load_decode (solution_save_encode h) = some h := by
  cases h with
  | nil => rfl
  | cons c rest =>
    have hc : c ∈ sokAlphabet := hval c (by simp)
    have hrest : ∀ c' ∈ rest, c' ∈ sokAlphabet := fun c' h' => hval c' (by simp [h'])
    have hcur7 : xsb2byte c ≤ 7 := xsb2byte_le c hc
    have hne : ¬(((xsb2byte c : Nat) : Int) = (-1 : Int) ∧ (0 : Nat) < 15) := by
      intro hx
      have := hx.1
      omega
    have hc8 : ¬((xsb2byte c : Nat) : Int) = ((8 : Nat) : Int) := by
      intro hx
      have : xsb2byte c = 8 := by exact_mod_cast hx
      omega
    unfold solution_save_encode
    simp only [solution_save_rle]
    rw [if_neg hne, if_neg (show ¬(0 : Nat) < 0 by omega), if_neg (by exact_mod_cast hc8)]
    rw [List.nil_append]
    rw [decode_solution_save_rle rest (xsb2byte c) 1 hcur7 (by omega) (by omega) hrest]
    simp [byte2xsb_xsb2byte c hc]

/-- Witness for C1 on the spec's example history `"uuuuUUUUrrr"`. -/
theorem solution_roundtrip_witness :
    solution_load_decode (solution_save_encode
        ['u', 'u', 'u', 'u', 'U', 'U', 'U', 'U', 'r', 'r', 'r']) =
      some ['u', 'u', 'u', 'u', 'U', 'U', 'U', 'U', 'r', 'r', 'r'] :=
  solution_roundtrip _ (by decide)

/-! ## Flood fill invariants -/

/-- The flood fill never touches a cell that is not exactly a bare floor:
each recursion level only clears cells whose current value is
`field_floor`. -/
theorem floodFillField_preserve (fuel : Nat) :
    ∀ (f : Int → Int → Nat) (x y a b : Int), f a b ≠ field_floor →
      floodFillField fuel f x y a b = f a b := by
  induction fuel with
  | zero => intro f x y a b _; rfl
  | succ k ih =>
    intro f x y a b hab
    show floodFillField (k + 1) f x y a b = f a b
    unfold floodFillField
    split
    next hg =>
      have hne : ¬(a = x ∧ b = y) := fun hx => hab (by rw [hx.1, hx.2]; exact hg.2.2.2.2)
      have e0 : updCell f x y 0 a b = f a b := by unfold updCell; rw [if_neg hne]
      have h0 : updCell f x y 0 a b ≠ field_floor := by rw [e0]; exact hab
      have e1 := ih (updCell f x y 0) (x + 1) y a b h0
      have h1 : floodFillField k (updCell f x y 0) (x + 1) y a b ≠ field_floor := by
        rw [e1]; exact h0
      have e2 := ih _ (x - 1) y a b h1
      have h2 : floodFillField k (floodFillField k (updCell f x y 0) (x + 1) y)
          (x - 1) y a b ≠ field_floor := by rw [e2]; exact h1
      have e3 := ih _ x (y + 1) a b h2
      have h3 : floodFillField k (floodFillField k (floodFillField k (updCell f x y 0)
          (x + 1) y) (x - 1) y) x (y + 1) a b ≠ field_floor := by rw [e3]; exact h2
      have e4 := ih _ x (y - 1) a b h3
      rw [e4, e3, e2, e1, e0]
    next => rfl

/-- The flood fill either leaves a cell alone or clears it to 0. -/
theorem floodFillField_cases (fuel : Nat) :
    ∀ (f : Int → Int → Nat) (x y a b : Int),
      floodFillField fuel f x y a b = f a b ∨ floodFillField fuel f x y a b = 0 := by
  have trans2 : ∀ {u v w : Nat}, (u = v ∨ u = 0) → (v = w ∨ v = 0) → (u = w ∨ u = 0) := by
    intro u v w h1 h2
    omega
  induction fuel with
  | zero => intro f x y a b; exact Or.inl rfl
  | succ k ih =>
    intro f x y a b
    show floodFillField (k + 1) f x y a b = f a b ∨ _ = 0
    unfold floodFillField
    split
    next =>
      have d0 : updCell f x y 0 a b = f a b ∨ updCell f x y 0 a b = 0 := by
        unfold updCell
        split
        · exact Or.inr rfl
        · exact Or.inl rfl
      exact trans2 (ih _ x (y - 1) a b) (trans2 (ih _ x (y + 1) a b)
        (trans2 (ih _ (x - 1) y a b) (trans2 (ih _ (x + 1) y a b) d0)))
    next => exact Or.inl rfl

/-! ## Pinning the concrete parses -/

set_option maxRecDepth 4000 in
/-- The parser state of `"@$."`. -/
theorem c3bytes_parse : parseLevelBody c3bytes = Except.ok c3st := rfl

set_option maxRecDepth 4000 in
/-- The parser state of `"#@"`. -/
theorem c6bytes_parse : parseLevelBody c6bytes = Except.ok c6st := rfl

/-- Shape of a successful `loadlevelfromfile` run in terms of the final
parser state. -/
theorem loadlevelfromfile_ok (buf : List Nat) (st : ParseSt)
    (h : parseLevelBody buf = Except.ok st)
    (h1 : ¬st.positionx < 0) (h2 : ¬st.field_height < 1)
    (h3 : ¬st.field_width < 1) (h4 : ¬st.leveldatastarted = 0) :
    loadlevelfromfile buf =
      ((if st.endoffile then 1 else 0), some (gameOfSt st), st.buf) := by
  simp only [loadlevelfromfile, h]
  rw [if_neg h1, if_neg h2, if_neg h3, if_neg h4]

/-- `"@$."` loads as one level with end-of-file reached. -/
theorem c3bytes_load : loadlevelfromfile c3bytes = (1, some c3game, []) := by
  rw [loadlevelfromfile_ok c3bytes c3st c3bytes_parse (by decide) (by decide)
    (by decide) (by decide)]
  rfl

/-! ## C3: the "@$." level and the right move from row 0 -/

/-- C3 (counterexample): on the level parsed from `"@$."`, the single
authoritative right move does not succeed as a push: `sok_move` returns
-1 (the `if (y < 1) return(-1)` guard of sok_core.c line 522 rejects
every move while the player is at row 0) and the history stays empty, so
it never becomes `"R"`. -/
theorem c3_right_move_rejected :
    (sok_move c3game SOKMOVE.sokmoveRIGHT false sok_newstates).1 = -1 ∧
    (sok_move c3game SOKMOVE.sokmoveRIGHT false sok_newstates).2.2.history ≠ ['R'] := by
  constructor
  · rfl
  · intro h
    have h0 : (sok_move c3game SOKMOVE.sokmoveRIGHT false sok_newstates).2.2.history = [] := rfl
    rw [h0] at h
    exact List.cons_ne_nil 'R' [] h.symm

/-- C3 (amended): parsing the single block `"@$."` yields one level with
width 3, height 1, the player start at (0,0), an atom at (1,0) and a goal
at (2,0); on a fresh game state the authoritative right move is rejected
with return value -1 because the player is at row 0, leaving the game and
the history unchanged. -/
theorem c3_parse_and_row0_rejection :
    (loadlevelfromfile c3bytes).1 = 1 ∧
    (loadlevelfromfile c3bytes).2.1 = some c3game ∧
    c3game.field_width = 3 ∧ c3game.field_height = 1 ∧
    c3game.positionx = 0 ∧ c3game.positiony = 0 ∧
    c3game.field 1 0 &&& field_atom ≠ 0 ∧
    c3game.field 2 0 &&& field_goal ≠ 0 ∧
    (sok_move c3game SOKMOVE.sokmoveRIGHT false sok_newstates).1 = -1 ∧
    (sok_move c3game SOKMOVE.sokmoveRIGHT false sok_newstates).2.1 = c3game ∧
    (sok_move c3game SOKMOVE.sokmoveRIGHT false sok_newstates).2.2.history = [] := by
  have hf : c3game.field = shiftField (floodFillField floodfill_fuel c3st.field 63 63) := rfl
  have hatom : c3game.field 1 0 = 3 := by
    rw [hf]
    unfold shiftField
    rw [if_pos (by decide : (0 : Int) ≤ 1 ∧ (1 : Int) < 63 ∧ (0 : Int) ≤ 0 ∧ (0 : Int) < 63)]
    norm_num
    rw [floodFillField_preserve floodfill_fuel c3st.field 63 63 2 1 (by decide)]
    decide
  have hgoal : c3game.field 2 0 = 5 := by
    rw [hf]
    unfold shiftField
    rw [if_pos (by decide : (0 : Int) ≤ 2 ∧ (2 : Int) < 63 ∧ (0 : Int) ≤ 0 ∧ (0 : Int) < 63)]
    norm_num
    rw [floodFillField_preserve floodfill_fuel c3st.field 63 63 3 1 (by decide)]
    decide
  refine ⟨by rw [c3bytes_load], by rw [c3bytes_load], rfl, rfl, rfl, rfl, ?_, ?_, rfl, rfl, rfl⟩
  · rw [hatom]; decide
  · rw [hgoal]; decide

/-! ## C6: the legacy CRC32 input -/

/-- `"#@"` loads as one level with end-of-file reached. -/
theorem c6bytes_load : loadlevelfromfile c6bytes = (1, some c6game, []) := by
  rw [loadlevelfromfile_ok c6bytes c6st c6bytes_parse (by decide) (by decide)
    (by decide) (by decide)]
  rfl

/-- The first byte the legacy CRC32 loop feeds, for any non-degenerate
parser state, is the post-shift cell (0,0). -/
theorem gameOfSt_crc_head (st : ParseSt) (hw : 0 < st.field_width)
    (hh : 0 < st.field_height) :
    (gameOfSt st).crc32_106_input.headI =
      shiftField (floodFillField floodfill_fuel st.field 63 63)
        (Int.ofNat 0) (Int.ofNat 0) := by
  obtain ⟨w, hw'⟩ : ∃ w, st.field_width = w + 1 := ⟨st.field_width - 1, by omega⟩
  obtain ⟨ht, hh'⟩ : ∃ ht, st.field_height = ht + 1 := ⟨st.field_height - 1, by omega⟩
  show ((List.range st.field_width).flatMap (fun y =>
      (List.range st.field_height).map (fun x =>
        shiftField (floodFillField floodfill_fuel st.field 63 63)
          (Int.ofNat x) (Int.ofNat y)))).headI = _
  rw [hw', hh', List.range_succ_eq_map, List.range_succ_eq_map, List.flatMap_cons,
    List.map_cons, List.cons_append, List.headI_cons]

/-- The first byte of the claim's pre-shift reading, for any
non-degenerate parser state, is the flood-filled border cell (0,0). -/
theorem legacy_claim_bytes_head (st : ParseSt) (hw : 0 < st.field_width)
    (hh : 0 < st.field_height) :
    (legacy_claim_bytes st).headI =
      floodFillField floodfill_fuel st.field 63 63 (Int.ofNat 0) (Int.ofNat 0) := by
  obtain ⟨w, hw'⟩ : ∃ w, st.field_width = w + 1 := ⟨st.field_width - 1, by omega⟩
  obtain ⟨ht, hh'⟩ : ∃ ht, st.field_height = ht + 1 := ⟨st.field_height - 1, by omega⟩
  show ((List.range st.field_width).flatMap (fun y =>
      (List.range st.field_height).map (fun x =>
        floodFillField floodfill_fuel st.field 63 63 (Int.ofNat x) (Int.ofNat y)))).headI = _
  rw [hw', hh', List.range_succ_eq_map, List.range_succ_eq_map, List.flatMap_cons,
    List.map_cons, List.cons_append, List.headI_cons]

/-- The first byte the code feeds to the legacy CRC32 for `"#@"` is the
wall byte 9: after the shift, cell (0,0) is the pre-shift wall at (1,1),
which the flood fill preserves. -/
theorem c6_code_head : c6game.crc32_106_input.headI = 9 := by
  show (gameOfSt c6st).crc32_106_input.headI = 9
  rw [gameOfSt_crc_head c6st (by decide) (by decide)]
  unfold shiftField
  rw [if_pos (by decide :
    (0 : Int) ≤ Int.ofNat 0 ∧ Int.ofNat 0 < 63 ∧
    (0 : Int) ≤ Int.ofNat 0 ∧ Int.ofNat 0 < 63)]
  norm_num
  rw [floodFillField_preserve floodfill_fuel c6st.field 63 63 1 1 (by decide)]
  decide

/-- The first byte of the claim's pre-shift reading for `"#@"` is the
border cell (0,0), which the flood fill either leaves as floor (1) or
clears to 0; it can never be the wall byte 9. -/
theorem c6_claim_head :
    (legacy_claim_bytes c6st).headI = 1 ∨ (legacy_claim_bytes c6st).headI = 0 := by
  rw [legacy_claim_bytes_head c6st (by decide) (by decide)]
  rcases floodFillField_cases floodfill_fuel c6st.field 63 63
    (Int.ofNat 0) (Int.ofNat 0) with h | h <;> rw [h]
  · left
    decide
  · right
    rfl

/-- C6 (counterexample): on the level parsed from `"#@"`, the byte
sequence the code feeds to the legacy CRC32 differs from the byte
sequence described by the claim (the same swapped-axes loop run over the
grid buffer before the (-1,-1) border shift): the code's first byte is
the shifted wall value 9 while the pre-shift reading starts at the
flood-filled border cell (value 0 or 1). -/
theorem legacy_hash_before_shift_refuted :
    legacy_hash_input_of c6bytes ≠ legacy_hash_input_claimed c6bytes := by
  intro h
  have hof : legacy_hash_input_of c6bytes = some c6game.crc32_106_input := by
    unfold legacy_hash_input_of
    rw [c6bytes_load]
    rfl
  have hcl : legacy_hash_input_claimed c6bytes = some (legacy_claim_bytes c6st) := by
    simp only [legacy_hash_input_claimed, c6bytes_parse]
    rw [if_neg (by decide), if_neg (by decide), if_neg (by decide), if_neg (by decide)]
  rw [hof, hcl] at h
  have h3 := congrArg List.headI (Option.some.inj h)
  rw [c6_code_head] at h3
  rcases c6_claim_head with h4 | h4 <;> rw [h4] at h3 <;> exact absurd h3 (by decide)

/-- C6 (amended): for every successfully parsed level, the byte sequence
fed to the legacy CRC32 (`crc32_106`) is computed **after** the (-1,-1)
border shift, over the level's final grid, iterating with the `y` index
bounded by `field_width` and the `x` index bounded by `field_height`
(axes swapped relative to the real extents), and without including the
player position. -/
theorem legacy_hash_after_shift (buf : List Nat) (g : Sokgame)
    (h : (loadlevelfromfile buf).2.1 = some g) :
    g.crc32_106_input = legacy_hash_input_amended g := by
  cases hp : parseLevelBody buf with
  | error e =>
    simp only [loadlevelfromfile, hp] at h
    exact absurd h (by simp)
  | ok st =>
    simp only [loadlevelfromfile, hp] at h
    split_ifs at h <;> simp at h <;> subst h <;> rfl

/-- Witness for the amended C6 on the level parsed from `"#@"`. -/
theorem legacy_hash_after_shift_witness :
    c6game.crc32_106_input = legacy_hash_input_amended c6game :=
  legacy_hash_after_shift c6bytes c6game (by rw [c6bytes_load])

/-! ## C7: exceeding the level capacity -/

/-- Whenever the level-loading loop returns a negative value, the caller
receives no levels: the error path runs `sok_freefile` over everything
parsed so far and returns only the error code. -/
theorem sok_loadfileLoop_neg : ∀ (fuel : Nat) (buf : List Nat) (maxlevels level : Nat)
    (acc : List Sokgame), (sok_loadfileLoop fuel buf maxlevels level acc).1 < 0 →
    (sok_loadfileLoop fuel buf maxlevels level acc).2 = [] := by
  intro fuel
  induction fuel with
  | zero => intro buf m lvl acc _; rfl
  | succ k ih =>
    intro buf m lvl acc h
    unfold sok_loadfileLoop at h ⊢
    rcases hload : loadlevelfromfile buf with ⟨errflag, gameOpt, rest⟩
    rw [hload] at h
    cases gameOpt with
    | none =>
      dsimp only at h ⊢
      split_ifs at h ⊢ <;>
        first
          | rfl
          | (exfalso; dsimp only at h; omega)
    | some game =>
      dsimp only at h ⊢
      split_ifs at h ⊢ <;>
        first
          | rfl
          | (exact ih _ _ _ _ h)
          | (exfalso; dsimp only at h; omega)

/-- C7 (counterexample): loading the two-level buffer `"@;\n@"` with
capacity 1 reports `TooManyLevelsInSet` (-7), yet the caller receives an
empty list even though the first block parses into a valid level: the
already parsed levels are freed, not returned. -/
theorem too_many_levels_frees_parsed :
    (sok_loadfile c7bytes 1).1 = ERR_TOO_MANY_LEVELS_IN_SET ∧
    (sok_loadfile c7bytes 1).2 = [] ∧
    (loadlevelfromfile c7bytes).1 = 0 ∧
    ((loadlevelfromfile c7bytes).2.1).isSome = true := by
  refine ⟨by decide, rfl, by decide, by decide⟩

/-- C7 (amended): when the number of parsed levels exceeds the capacity,
`sok_loadfile` reports `TooManyLevelsInSet` (-7), but the levels already
parsed are freed and the caller receives none of them — on every negative
return the resulting list is empty. -/
theorem too_many_levels_reported :
    (sok_loadfile c7bytes 1).1 = ERR_TOO_MANY_LEVELS_IN_SET ∧
    (∀ (buf : List Nat) (maxlevels : Nat), (sok_loadfile buf maxlevels).1 < 0 →
       (sok_loadfile buf maxlevels).2 = []) :=
  ⟨by decide, fun buf maxlevels h => sok_loadfileLoop_neg _ _ _ _ _ h⟩

/-- Witness for the amended C7 at the concrete two-level buffer. -/
theorem too_many_levels_reported_witness : (sok_loadfile c7bytes 1).2 = [] :=
  too_many_levels_reported.2 c7bytes 1 (by decide)

/-! ## C8: dry-run versus authoritative moves -/

/-- `sok_checksolution` only reads the history of the states, never the
facing angle. -/
theorem checksolution_states1 (game : Sokgame) (s : Sokgamestates) (a : Int) :
    sok_checksolution game (some { angle := a, history := s.history }) =
      sok_checksolution game (some s) := rfl

/-- C8 (counterexample): on `demo_game` (one push away from solved, fresh
state with angle 0), the dry-run right move returns flags 3
(pushed|ongoal) while the authoritative call returns 7
(pushed|ongoal|solved) — the solved flag differs — and the dry-run call
updates the facing angle from 0 to 90, so the dry run does not leave the
angle unchanged either. -/
theorem sok_move_dry_run_deviates :
    (sok_move demo_game SOKMOVE.sokmoveRIGHT true demo_states).1 = 3 ∧
    (sok_move demo_game SOKMOVE.sokmoveRIGHT false demo_states).1 = 7 ∧
    demo_states.angle = 0 ∧
    (sok_move demo_game SOKMOVE.sokmoveRIGHT true demo_states).2.2.angle = 90 := by
  decide

set_option maxHeartbeats 3200000 in
/-- C8 (amended): for every game, direction and state, the dry-run call
commits nothing to the field, position and history, but it does set the
facing angle to the direction's angle; it is accepted exactly when the
authoritative call would be, with the same pushed and on-goal flags,
while its solved flag reflects the pre-move state (it is set iff the
board is already solved with at least one recorded push), not the
outcome of the move. -/
theorem sok_move_dry_run (g : Sokgame) (d : SOKMOVE) (s : Sokgamestates) :
    (sok_move g d true s).2.1 = g ∧
    (sok_move g d true s).2.2.history = s.history ∧
    (sok_move g d true s).2.2.angle = sokmove_angle d ∧
    ((sok_move g d true s).1 < 0 ↔ (sok_move g d false s).1 < 0) ∧
    (0 ≤ (sok_move g d true s).1 →
      ((sok_move g d true s).1.toNat &&& 3 = (sok_move g d false s).1.toNat &&& 3 ∧
       ((sok_move g d true s).1.toNat &&& 4 ≠ 0 ↔ sok_checksolution g (some s) ≠ 0))) := by
  cases d <;>
    (simp [sok_move, sok_checksolution_none, sokmove_angle, checksolution_states1,
       sokmove_pushed, sokmove_ongoal, sokmove_solved]
     split_ifs <;> simp_all <;> decide)

/-- Witness for the amended C8 on `demo_game`. -/
theorem sok_move_dry_run_witness :
    (sok_move demo_game SOKMOVE.sokmoveRIGHT true demo_states).2.1 = demo_game ∧
    (sok_move demo_game SOKMOVE.sokmoveRIGHT true demo_states).1.toNat &&& 3 =
      (sok_move demo_game SOKMOVE.sokmoveRIGHT false demo_states).1.toNat &&& 3 :=
  ⟨(sok_move_dry_run demo_game SOKMOVE.sokmoveRIGHT demo_states).1,
   ((sok_move_dry_run demo_game SOKMOVE.sokmoveRIGHT demo_states).2.2.2.2 (by decide)).1⟩

/-! ## C5: undo round trip -/

set_option maxRecDepth 2000 in
/-- A byte clear of wall and atom bits has no atom bit. -/
theorem byte_and10 : ∀ a : Nat, a < 256 →
    a &&& (field_wall ||| field_atom) = 0 → a &&& field_atom = 0 := by
  decide

/-- Undoing a push restores the field: clearing the atom at the beyond
cell and restoring it on the pushed-from cell inverts the push's two
writes (the push requires an atom at `(px,py)` and a free beyond cell
`(qx,qy)`). -/
theorem push_field_restore (F : Int → Int → Nat) (px py qx qy qx2 qy2 : Int)
    (heqx : qx2 = qx) (heqy : qy2 = qy)
    (hne : ¬(px = qx ∧ py = qy))
    (hcells : ∀ a b, F a b < 256)
    (hatom : F px py &&& field_atom ≠ 0)
    (hfree : F qx qy &&& (field_wall ||| field_atom) = 0) :
    orCell (andCell (orCell (andCell F px py 253) qx qy field_atom) qx2 qy2 253)
      px py field_atom = F := by
  rw [heqx, heqy]
  funext a b
  have hq2 : F qx qy &&& field_atom = 0 := byte_and10 _ (hcells qx qy) hfree
  by_cases hp : a = px ∧ b = py
  · have hnq : ¬(a = qx ∧ b = qy) := by
      intro hq
      exact hne ⟨by rw [← hp.1, hq.1], by rw [← hp.2, hq.2]⟩
    simp only [orCell, andCell, if_pos hp, if_neg hnq]
    rw [hp.1, hp.2]
    exact byte_and253_or2 _ (hcells px py) hatom
  · by_cases hq : a = qx ∧ b = qy
    · simp only [orCell, andCell, if_pos hq, if_neg hp]
      rw [hq.1, hq.2]
      exact byte_or2_and253 _ (hcells qx qy) hq2
    · simp only [orCell, andCell, if_neg hp, if_neg hq]

set_option maxHeartbeats 3200000 in
/-- One accepted authoritative move followed by one `sok_undo` restores
the field, the player position and the history. -/
theorem sok_move_undo_step (g : Sokgame) (d : SOKMOVE) (s : Sokgamestates)
    (hcells : cellsOk g) (hok : 0 ≤ (sok_move g d false s).1) :
    agreeGS (undoPair (sok_move g d false s).2) (g, s) := by
  unfold agreeGS undoPair
  cases d <;>
    (simp [sok_move, sok_checksolution_none] at hok ⊢
     split_ifs at hok ⊢ <;>
       simp_all [sok_undo, List.getLastD_concat, List.dropLast_concat] <;>
       exact push_field_restore g.field _ _ _ _ _ _ (by ring) (by ring)
         (by intro hh; exact absurd hh.1 (by omega)) hcells (by assumption) (by assumption))

/-- Masking a byte keeps it a byte. -/
theorem cell_and253_lt (v : Nat) : v &&& 253 < 256 :=
  lt_of_le_of_lt Nat.and_le_right (by norm_num)

/-- Setting the atom bit keeps a byte a byte. -/
theorem cell_or2_lt (v : Nat) (h : v < 256) : v ||| field_atom < 256 := by
  have h8 : (256 : Nat) = 2 ^ 8 := rfl
  rw [h8] at h ⊢
  exact Nat.or_lt_two_pow h (by decide)

set_option maxHeartbeats 1600000 in
/-- An authoritative move keeps every cell a byte value. -/
theorem sok_move_cellsOk (g : Sokgame) (d : SOKMOVE) (s : Sokgamestates)
    (hcells : cellsOk g) : cellsOk (sok_move g d false s).2.1 := by
  intro a b
  cases d <;>
    (simp [sok_move, sok_checksolution_none]
     split_ifs <;> (try simp [orCell, andCell]) <;> (try split_ifs) <;>
       first
         | exact hcells a b
         | exact hcells _ _
         | exact cell_and253_lt _
         | exact cell_or2_lt _ (hcells _ _)
         | exact cell_or2_lt _ (cell_and253_lt _))

/-- `agreeGS` is reflexive. -/
theorem agreeGS_refl (gs : Sokgame × Sokgamestates) : agreeGS gs gs := ⟨rfl, rfl, rfl, rfl⟩

/-- `agreeGS` is transitive. -/
theorem agreeGS_trans {a b c : Sokgame × Sokgamestates} (h1 : agreeGS a b)
    (h2 : agreeGS b c) : agreeGS a c :=
  ⟨h1.1.trans h2.1, h1.2.1.trans h2.2.1, h1.2.2.1.trans h2.2.2.1, h1.2.2.2.trans h2.2.2.2⟩

/-- `sok_undo` reads only the field, the player position and the history:
two calls agreeing on those agree on them afterwards as well. -/
theorem sok_undo_congr (gA gB : Sokgame) (sA sB : Sokgamestates)
    (hf : gA.field = gB.field) (hx : gA.positionx = gB.positionx)
    (hy : gA.positiony = gB.positiony) (hh : sA.history = sB.history) :
    agreeGS (sok_undo gA sA) (sok_undo gB sB) := by
  unfold agreeGS sok_undo
  simp only [hf, hx, hy, hh]
  split_ifs <;> simp_all

/-- Peeling the last of `n + 1` undos. -/
theorem undoN_succ_last (n : Nat) : ∀ gs, undoN (n + 1) gs = undoPair (undoN n gs) := by
  induction n with
  | zero => intro gs; rfl
  | succ k ih =>
    intro gs
    have h1 : undoN (k + 1 + 1) gs = undoN (k + 1) (undoPair gs) := rfl
    rw [h1, ih (undoPair gs)]
    rfl

/-- Undoing once per accepted move, in reverse order, restores the player
position, the field and the history of the starting state. -/
theorem undo_restores_aux : ∀ (ds : List SOKMOVE) (g : Sokgame) (s : Sokgamestates),
    cellsOk g → movesSucceed (g, s) ds →
    agreeGS (undoN ds.length (applyMoves (g, s) ds)) (g, s) := by
  intro ds
  induction ds with
  | nil => intro g s _ _; exact agreeGS_refl _
  | cons d rest ih =>
    intro g s hc hm
    simp only [movesSucceed] at hm
    obtain ⟨h1, h2⟩ := hm
    have hc1 : cellsOk (applyMove (g, s) d).1 := sok_move_cellsOk g d s hc
    have hagree := ih (applyMove (g, s) d).1 (applyMove (g, s) d).2 hc1 h2
    have hlen : (d :: rest).length = rest.length + 1 := rfl
    rw [hlen]
    have happ : applyMoves (g, s) (d :: rest) = applyMoves (applyMove (g, s) d) rest := rfl
    rw [happ, undoN_succ_last]
    have hcong := sok_undo_congr
      (undoN rest.length (applyMoves (applyMove (g, s) d) rest)).1
      (applyMove (g, s) d).1
      (undoN rest.length (applyMoves (applyMove (g, s) d) rest)).2
      (applyMove (g, s) d).2
      hagree.1 hagree.2.1 hagree.2.2.1 hagree.2.2.2
    exact agreeGS_trans hcong (sok_move_undo_step g d s hc h1)

/-- C5: for every game with byte-valued cells and any sequence of
accepted authoritative moves, applying `sok_undo` once per move (in
reverse order) restores the player position, the field and the history to
their values before the sequence; each `sok_undo` on a non-empty history
removes exactly its last character; and `sok_undo` on an empty history
changes nothing. -/
theorem sok_undo_roundtrip :
    (∀ (g : Sokgame) (s : Sokgamestates) (ds : List SOKMOVE),
       cellsOk g → movesSucceed (g, s) ds →
       agreeGS (undoN ds.length (applyMoves (g, s) ds)) (g, s)) ∧
    (∀ (g : Sokgame) (s : Sokgamestates), s.history ≠ [] →
       (sok_undo g s).2.history = s.history.dropLast) ∧
    (∀ (g : Sokgame) (s : Sokgamestates), s.history = [] → sok_undo g s = (g, s)) := by
  refine ⟨fun g s ds => undo_restores_aux ds g s, ?_, ?_⟩
  · intro g s h
    unfold sok_undo
    rw [if_neg h]
  · intro g s h
    unfold sok_undo
    rw [if_pos h]

/-- Witness for C5: pushing right on `demo_game` and undoing restores the
start; an undo on history `['R']` drops the 'R'; an undo on the fresh
state is a no-op. -/
theorem sok_undo_roundtrip_witness :
    agreeGS (undoN 1 (applyMoves (demo_game, demo_states) [SOKMOVE.sokmoveRIGHT]))
      (demo_game, demo_states) ∧
    (sok_undo demo_game c2states).2.history = c2states.history.dropLast ∧
    sok_undo demo_game demo_states = (demo_game, demo_states) :=
  ⟨sok_undo_roundtrip.1 demo_game demo_states [SOKMOVE.sokmoveRIGHT]
     (by intro x y; simp only [demo_game]; split_ifs <;> norm_num)
     ⟨by decide, trivial⟩,
   sok_undo_roundtrip.2.1 demo_game c2states (by decide),
   sok_undo_roundtrip.2.2 demo_game demo_states rfl⟩
